import Mathlib

/-!
Verification of the text-merger pipeline (`text_merger.py`).

The program unpacks a zip archive, walks the extracted files, and merges
their textual content into one markdown document.  We embed the four
functions `get_conversion_tool`, `convert_file`, `is_text_file` and
`process_zip` shallowly:

* the external world (presence of `jupytext`/`pandoc`, outcomes of
  subprocess invocations) is a record `Env`;
* a file extracted from the archive is an `Entry`: its relative path, the
  bytes readable from it (`none` models an `OSError` on `open`/`read`),
  and its `stat` size;
* the archive-level input is a `ZipInput`: directory and name of the
  resolved zip path, whether the path exists, whether extraction succeeds
  (`false` models `zipfile.BadZipFile`), and the extracted entries in
  `os.walk` order;
* the run's outcome is a `ProcOut`: the output file (path and list of
  per-file sections) when one is created, and the printed messages.

UTF-8 decoding of Python's `f.read(1024)` (read 1024 characters, raise
`UnicodeDecodeError` on invalid input) is embedded as a byte-level
decoder `utf8DecodeOne` iterated with a 1024-character budget, and
`errors='replace'` reading as `decodeReplace`.
-/

/-- Lower-case one character, as Python's `str.lower` acts on ASCII
(the extension sets compared against are all ASCII). -/
def lowerChar (c : Char) : Char :=
  if 65 ≤ c.toNat ∧ c.toNat ≤ 90 then Char.ofNat (c.toNat + 32) else c

/-- Lower-case a string: `extension.lower()` / `suffix.lower()`. -/
def strLower (s : String) : String := ⟨s.data.map lowerChar⟩

/-- Characters after the last `/`, i.e. `PurePath.name` for the paths the
walk produces (never ending in a slash). -/
def pathName (p : String) : String :=
  ⟨((p.data.reverse.takeWhile (fun c => c != '/'))).reverse⟩

/-- Embedding of Python's `PurePath.suffix`: the final component's part
from its last dot, provided that dot is neither the first nor the last
character of the component; otherwise the empty string. -/
def pathSuffix (p : String) : String :=
  let rev := (pathName p).data.reverse
  let after := rev.takeWhile (fun c => c != '.')
  match rev.dropWhile (fun c => c != '.') with
  | [] => ""
  | _ :: before =>
    if before.isEmpty || after.isEmpty then "" else ⟨'.' :: after.reverse⟩

/-- The fixed allow-list of text extensions in `is_text_file`. -/
def text_extensions : List String :=
  [".txt", ".md", ".py", ".js", ".html", ".css", ".json", ".xml",
   ".yml", ".yaml", ".ini", ".conf", ".sh", ".bat", ".c", ".cpp",
   ".h", ".java", ".rs", ".go", ".ts", ".tsx", ".jsx", ".vue",
   ".php", ".rb", ".pl", ".sql", ".r", ".m", ".swift", ".kt"]

/-- The set of formats pandoc can typically read, from
`get_conversion_tool`. -/
def pandoc_formats : List String :=
  [".docx", ".odt", ".tex", ".latex", ".rst", ".org", ".wiki",
   ".epub", ".html", ".htm"]

/-- Stands for `sys.executable`. -/
def sysExecutable : String := "python"

/-- The external world: whether `python -m jupytext --version` exits
zero, whether `shutil.which('pandoc')` finds pandoc, and the outcome of
running a conversion command (`some stdout` on exit code zero, `none`
when the subprocess exits non-zero — `CalledProcessError` — or its
invocation raises). -/
structure Env where
  jupytextVersionOk : Bool
  pandocOnPath : Bool
  run : List String → Option String

/-- Embedding of `get_conversion_tool(extension)`: lower-case the
extension; for `.ipynb` with a working jupytext return the jupytext
command template, for a pandoc-readable format with pandoc on the PATH
return the pandoc template, otherwise `None`. -/
def get_conversion_tool (env : Env) (extension : String) : Option (List String) :=
  let ext := strLower extension
  if ext == ".ipynb" && env.jupytextVersionOk then
    some [sysExecutable, "-m", "jupytext", "--to", "markdown", "--output", "-"]
  else if pandoc_formats.contains ext && env.pandocOnPath then
    some ["pandoc", "-t", "markdown"]
  else
    none

/-- Embedding of `convert_file(file_path)`: look up the tool for the
path's suffix, run it with the file path appended, and return
`(stdout, True)` on success; on no tool, a non-zero exit or an
invocation error return `(None, False)`. -/
def convert_file (env : Env) (file_path : String) : Option String × Bool :=
  match get_conversion_tool env (pathSuffix file_path) with
  | some tool_cmd =>
    match env.run (tool_cmd ++ [file_path]) with
    | some out => (some out, true)
    | none => (none, false)
  | none => (none, false)

/-- UTF-8 continuation byte. -/
def isCont (b : Nat) : Bool := 0x80 ≤ b && b ≤ 0xBF

/-- Decode one UTF-8 code point from the front of a byte list, as
CPython's strict UTF-8 codec accepts it (no overlong forms, no
surrogates, max U+10FFFF): the code point and the remaining bytes, or
`none` if the head is invalid or truncated. -/
def utf8DecodeOne : List Nat → Option (Nat × List Nat)
  | [] => none
  | b0 :: rest =>
    if b0 < 0x80 then some (b0, rest)
    else if 0xC2 ≤ b0 && b0 ≤ 0xDF then
      match rest with
      | b1 :: rest1 =>
        if isCont b1 then some ((b0 - 0xC0) * 0x40 + (b1 - 0x80), rest1) else none
      | [] => none
    else if 0xE0 ≤ b0 && b0 ≤ 0xEF then
      match rest with
      | b1 :: b2 :: rest2 =>
        let lo1 := if b0 == 0xE0 then 0xA0 else 0x80
        let hi1 := if b0 == 0xED then 0x9F else 0xBF
        if (lo1 ≤ b1 && b1 ≤ hi1) && isCont b2 then
          some ((b0 - 0xE0) * 0x1000 + (b1 - 0x80) * 0x40 + (b2 - 0x80), rest2)
        else none
      | _ => none
    else if 0xF0 ≤ b0 && b0 ≤ 0xF4 then
      match rest with
      | b1 :: b2 :: b3 :: rest3 =>
        let lo1 := if b0 == 0xF0 then 0x90 else 0x80
        let hi1 := if b0 == 0xF4 then 0x8F else 0xBF
        if (lo1 ≤ b1 && b1 ≤ hi1) && isCont b2 && isCont b3 then
          some ((b0 - 0xF0) * 0x40000 + (b1 - 0x80) * 0x1000 +
                (b2 - 0x80) * 0x40 + (b3 - 0x80), rest3)
        else none
      | _ => none
    else none

/-- Whether reading the first `budget` characters of the byte list as
UTF-8 succeeds: the embedding of `f.read(1024)` not raising
`UnicodeDecodeError` (with `budget = 1024`).  Fewer bytes than the
budget asks for is success (end of file); an invalid or truncated
sequence inside the budget is failure. -/
def utf8ReadChars : Nat → List Nat → Bool
  | _, [] => true
  | 0, _ => true
  | budget + 1, b :: bs =>
    match utf8DecodeOne (b :: bs) with
    | some x => utf8ReadChars budget x.2
    | none => false

/-- Decode a byte list as UTF-8 with invalid bytes replaced by U+FFFD:
the embedding of reading with `errors='replace'`, which never raises. -/
def decodeReplaceAux : Nat → List Nat → List Char
  | _, [] => []
  | 0, _ => []
  | fuel + 1, b :: bs =>
    match utf8DecodeOne (b :: bs) with
    | some x => Char.ofNat x.1 :: decodeReplaceAux fuel x.2
    | none => Char.ofNat 0xFFFD :: decodeReplaceAux fuel bs

/-- Decode with replacement; the fuel `bs.length` suffices because each
step consumes at least one byte. -/
def decodeReplace (bs : List Nat) : String := ⟨decodeReplaceAux bs.length bs⟩

/-- One file extracted from the archive: its path relative to the
scratch directory, the bytes readable from it (`none` models an
`OSError` raised by `open`/`read`), and its `stat().st_size`. -/
structure Entry where
  relpath : String
  bytes : Option (List Nat)
  size : Nat
  deriving DecidableEq

/-- Embedding of `is_text_file(file_path)`: `True` if the lower-cased
suffix is in the allow-list; otherwise try to read the first 1024
characters as UTF-8 and classify by success, with an `OSError`
(unreadable bytes) classified `False`. -/
def is_text_file (e : Entry) : Bool :=
  if text_extensions.contains (strLower (pathSuffix e.relpath)) then true
  else
    match e.bytes with
    | some bs => utf8ReadChars 1024 bs
    | none => false

/-- One per-file section of the output document: the `## File: ...`
block written by `process_zip`, either for a converted file or for a
plain-text file. -/
inductive Sect where
  | converted (relpath : String) (size : Nat) (ext : String) (content : String)
  | plain (relpath : String) (size : Nat) (ext : String) (content : String)
  deriving DecidableEq

/-- The plain-text arm of the per-entry loop body: if the file is
classified as text, read it with replacement and emit a section; a
read failure (`OSError`) is caught and the entry skipped. -/
def plainSection (e : Entry) : Option Sect :=
  if is_text_file e then
    match e.bytes with
    | some bs => some (Sect.plain e.relpath e.size (pathSuffix e.relpath) (decodeReplace bs))
    | none => none
  else none

/-- The per-entry loop body of `process_zip`: try conversion first and
emit a converted section on success (the `continue` path), otherwise
fall through to the plain-text arm. -/
def entrySection (env : Env) (e : Entry) : Option Sect :=
  let r := convert_file env e.relpath
  if r.2 then
    some (Sect.converted e.relpath e.size (pathSuffix e.relpath) (r.1.getD ""))
  else
    plainSection e

/-- The messages the loop body prints for one entry. -/
def entryLog (env : Env) (e : Entry) : List String :=
  let r := convert_file env e.relpath
  if r.2 then
    ["Converted and Added: " ++ e.relpath]
  else if is_text_file e then
    match e.bytes with
    | some _ => ["Added: " ++ e.relpath]
    | none => ["Skipping " ++ e.relpath]
  else []

/-- The archive-level input of one run: directory and file name of the
resolved zip path, whether that path exists, whether extraction
succeeds (`false` models `zipfile.BadZipFile`), and the extracted
entries in walk order. -/
structure ZipInput where
  dir : String
  name : String
  zexists : Bool
  valid : Bool
  entries : List Entry

/-- The full path of the resolved archive. -/
def zipPathStr (z : ZipInput) : String := z.dir ++ "/" ++ z.name

/-- Embedding of `zip_path.with_name(f"{zip_path.name}.md")`: a sibling
of the archive named after the archive's full file name with `.md`
appended. -/
def output_file (z : ZipInput) : String := z.dir ++ "/" ++ (z.name ++ ".md")

/-- Outcome of a run: the output document (its path and its per-file
sections, the header line aside) when one is created, and the printed
messages. -/
structure ProcOut where
  outFile : Option (String × List Sect)
  messages : List String

/-- Embedding of `process_zip(zip_path)`: a missing path or a bad zip
prints an error and returns before the output file is opened; otherwise
the output file is created and each walked entry contributes its
section, if any, in order. -/
def process_zip (env : Env) (z : ZipInput) : ProcOut :=
  if !z.zexists then
    { outFile := none
      messages := ["Error: File " ++ zipPathStr z ++ " not found."] }
  else if !z.valid then
    { outFile := none
      messages := ["Processing " ++ zipPathStr z ++ "...", "Error: Invalid zip file."] }
  else
    { outFile := some (output_file z, z.entries.filterMap (entrySection env))
      messages := ["Processing " ++ zipPathStr z ++ "..."]
        ++ (z.entries.map (entryLog env)).flatten
        ++ ["Done! Output saved to " ++ output_file z] }

/-- Environment with neither conversion tool available and every
subprocess failing. -/
def envNone : Env := ⟨false, false, fun _ => none⟩

/-- Environment where jupytext's version check succeeds but every
conversion subprocess exits non-zero. -/
def envJfail : Env := ⟨true, false, fun _ => none⟩

/-- Environment with no tools on the system although subprocesses, were
any run, would succeed. -/
def envPmiss : Env := ⟨false, false, fun _ => some "converted output"⟩

/-- A small ASCII text file. -/
def eTxt : Entry := ⟨"hello.txt", some [72, 105], 2⟩

/-- A binary file (png signature bytes, not valid UTF-8). -/
def ePng : Entry := ⟨"image.png", some [0x89, 0x50], 2⟩

/-- A notebook file. -/
def eNb : Entry := ⟨"nb.ipynb", some [123, 125], 2⟩

/-- A docx file with non-UTF-8 bytes. -/
def eDocx : Entry := ⟨"doc.docx", some [0xFF, 0xFE], 2⟩

/-- A file with an unknown extension and decodable content. -/
def eDat : Entry := ⟨"data.dat", some [104, 105], 2⟩

/-- An allow-listed extension over bytes that are not valid UTF-8. -/
def eBadTxt : Entry := ⟨"notes.txt", some [0xFF, 0xFE], 2⟩

/-- An existing, valid archive with one text entry. -/
def zOneTxt : ZipInput := ⟨"/tmp", "t.zip", true, true, [eTxt]⟩

/-- A path that does not exist. -/
def zMissing : ZipInput := ⟨"/tmp", "missing.zip", false, true, []⟩

/-- An existing file that is not a valid zip archive. -/
def zCorrupt : ZipInput := ⟨"/tmp", "corrupt.zip", true, false, []⟩

/-- Valid code points below the surrogate range round-trip through
`Char.ofNat`. -/
theorem charToNat_ofNat_lt {n : Nat} (h : n < 55296) : (Char.ofNat n).toNat = n := by
  have hv : n.isValidChar := Or.inl h
  simp [Char.ofNat, hv, Char.ofNatAux, Char.toNat, UInt32.toNat, UInt32.ofNatCore,
    BitVec.toNat_ofNatLt]

/-- Lower-casing a character is idempotent. -/
theorem lowerChar_lowerChar (c : Char) : lowerChar (lowerChar c) = lowerChar c := by
  by_cases h : 65 ≤ c.toNat ∧ c.toNat ≤ 90
  · have hlt : c.toNat + 32 < 55296 := by omega
    have hx : (Char.ofNat (c.toNat + 32)).toNat = c.toNat + 32 := charToNat_ofNat_lt hlt
    unfold lowerChar
    rw [if_pos h]
    rw [if_neg (by rw [hx]; omega)]
  · unfold lowerChar
    rw [if_neg h, if_neg h]

/-- Lower-casing a string is idempotent. -/
theorem strLower_strLower (s : String) : strLower (strLower s) = strLower s := by
  unfold strLower
  congr 1
  show (s.data.map lowerChar).map lowerChar = s.data.map lowerChar
  rw [List.map_map]
  exact List.map_congr_left fun c _ => lowerChar_lowerChar c

/-- A `filterMap` keeps the list length when the function is total on
the list's elements. -/
theorem length_filterMap_of_isSome {α β : Type} (f : α → Option β) (l : List α)
    (h : ∀ a ∈ l, (f a).isSome = true) : (l.filterMap f).length = l.length := by
  induction l with
  | nil => simp
  | cons a t ih =>
    rcases Option.isSome_iff_exists.mp (h a (by simp)) with ⟨b, hb⟩
    simp [List.filterMap_cons, hb, ih fun x hx => h x (by simp [hx])]

/-- C1: for every valid zip archive whose N entries are all text entries
(not converted, classified as text, readable), the output document
written by `process_zip` contains exactly N per-file content sections,
one per entry. -/
theorem C1_valid_archive_section_count (env : Env) (z : ZipInput)
    (hex : z.zexists = true) (hval : z.valid = true)
    (htext : ∀ e ∈ z.entries, (convert_file env e.relpath).2 = false ∧
      is_text_file e = true ∧ e.bytes.isSome = true) :
    ∃ secs, (process_zip env z).outFile = some (output_file z, secs) ∧
      secs.length = z.entries.length := by
  refine ⟨z.entries.filterMap (entrySection env), ?_, ?_⟩
  · simp [process_zip, hex, hval]
  · apply length_filterMap_of_isSome
    intro e he
    obtain ⟨hconv, htxt, hbytes⟩ := htext e he
    rcases Option.isSome_iff_exists.mp hbytes with ⟨bs, hbs⟩
    simp [entrySection, hconv, plainSection, htxt, hbs]

/-- Witness for C1 on an archive with one text entry. -/
theorem C1_valid_archive_section_count_witness :
    ∃ secs, (process_zip envNone zOneTxt).outFile = some (output_file zOneTxt, secs) ∧
      secs.length = zOneTxt.entries.length :=
  C1_valid_archive_section_count envNone zOneTxt rfl rfl (by decide)

/-- C2: a missing input path or an existing file that is not a valid zip
archive aborts the run: no output file is created and the run's last
printed message is the corresponding error message. -/
theorem C2_archive_error_aborts_no_output (env : Env) (z : ZipInput)
    (h : z.zexists = false ∨ z.valid = false) :
    (process_zip env z).outFile = none ∧
      ((process_zip env z).messages.getLast? =
          some ("Error: File " ++ zipPathStr z ++ " not found.") ∨
        (process_zip env z).messages.getLast? = some "Error: Invalid zip file.") := by
  rcases h with h | h
  · simp [process_zip, h]
  · cases hex : z.zexists with
    | true => simp [process_zip, hex, h]
    | false => simp [process_zip, hex]

/-- Witness for C2 on a missing path. -/
theorem C2_archive_error_aborts_no_output_witness :
    (process_zip envNone zMissing).outFile = none ∧
      ((process_zip envNone zMissing).messages.getLast? =
          some ("Error: File " ++ zipPathStr zMissing ++ " not found.") ∨
        (process_zip envNone zMissing).messages.getLast? = some "Error: Invalid zip file.") :=
  C2_archive_error_aborts_no_output envNone zMissing (Or.inl rfl)

/-- C3: when a conversion tool exists for a file but the subprocess
fails (non-zero exit or invocation error), `convert_file` returns
`(None, False)` and the per-entry loop body falls through to the
plain-text arm instead of failing. -/
theorem C3_conversion_failure_falls_back (env : Env) (e : Entry) (cmd : List String)
    (htool : get_conversion_tool env (pathSuffix e.relpath) = some cmd)
    (hrun : env.run (cmd ++ [e.relpath]) = none) :
    convert_file env e.relpath = (none, false) ∧ entrySection env e = plainSection e := by
  have hcf : convert_file env e.relpath = (none, false) := by
    simp [convert_file, htool, hrun]
  exact ⟨hcf, by simp [entrySection, hcf]⟩

/-- Witness for C3 on a notebook whose jupytext invocation fails. -/
theorem C3_conversion_failure_falls_back_witness :
    convert_file envJfail eNb.relpath = (none, false) ∧
      entrySection envJfail eNb = plainSection eNb :=
  C3_conversion_failure_falls_back envJfail eNb
    [sysExecutable, "-m", "jupytext", "--to", "markdown", "--output", "-"] (by decide) rfl

/-- C4: for a path without a known convertible extension, classification
falls back to the heuristic: an allow-listed extension is text, and
otherwise a readable file is text exactly when decoding its first 1024
characters as UTF-8 succeeds. -/
theorem C4_text_heuristic_fallback (env : Env) (e : Entry)
    (hnc : get_conversion_tool env (pathSuffix e.relpath) = none) :
    (text_extensions.contains (strLower (pathSuffix e.relpath)) = true →
      is_text_file e = true) ∧
    (text_extensions.contains (strLower (pathSuffix e.relpath)) = false →
      ∀ bs, e.bytes = some bs → is_text_file e = utf8ReadChars 1024 bs) := by
  constructor
  · intro h
    have hmem : strLower (pathSuffix e.relpath) ∈ text_extensions := by simpa using h
    simp [is_text_file, hmem]
  · intro h bs hbs
    have hmem : strLower (pathSuffix e.relpath) ∉ text_extensions := by simpa using h
    simp [is_text_file, hmem, hbs]

/-- Witness for C4 on a file with an unknown extension. -/
theorem C4_text_heuristic_fallback_witness :
    (text_extensions.contains (strLower (pathSuffix eDat.relpath)) = true →
      is_text_file eDat = true) ∧
    (text_extensions.contains (strLower (pathSuffix eDat.relpath)) = false →
      ∀ bs, eDat.bytes = some bs → is_text_file eDat = utf8ReadChars 1024 bs) :=
  C4_text_heuristic_fallback envNone eDat (by decide)

/-- C5: every entry contributes at most one section: the sections are
the entries' `entrySection` images (an `Option`, so one section or
none each), hence no more sections than entries, and a successfully
converted entry yields its converted section and never a plain one. -/
theorem C5_at_most_one_section_per_entry (env : Env) (z : ZipInput)
    (hex : z.zexists = true) (hval : z.valid = true) :
    ∃ secs, (process_zip env z).outFile = some (output_file z, secs) ∧
      secs = z.entries.filterMap (entrySection env) ∧
      secs.length ≤ z.entries.length ∧
      ∀ e c, convert_file env e.relpath = (some c, true) →
        entrySection env e = some (Sect.converted e.relpath e.size (pathSuffix e.relpath) c) := by
  refine ⟨z.entries.filterMap (entrySection env), by simp [process_zip, hex, hval], rfl,
    List.length_filterMap_le _ _, ?_⟩
  intro e c hconv
  simp [entrySection, hconv]

/-- Witness for C5 on an archive with one text entry. -/
theorem C5_at_most_one_section_per_entry_witness :
    ∃ secs, (process_zip envNone zOneTxt).outFile = some (output_file zOneTxt, secs) ∧
      secs = zOneTxt.entries.filterMap (entrySection envNone) ∧
      secs.length ≤ zOneTxt.entries.length ∧
      ∀ e c, convert_file envNone e.relpath = (some c, true) →
        entrySection envNone e =
          some (Sect.converted e.relpath e.size (pathSuffix e.relpath) c) :=
  C5_at_most_one_section_per_entry envNone zOneTxt rfl rfl

/-- C6: an entry whose extension is neither convertible nor
allow-listed and whose bytes are not decodable as UTF-8 is omitted from
the output document, and the run still completes over the remaining
entries. -/
theorem C6_undecodable_binary_omitted (env : Env) (dir name : String)
    (l1 l2 : List Entry) (e : Entry) (bs : List Nat)
    (hnc : get_conversion_tool env (pathSuffix e.relpath) = none)
    (hext : text_extensions.contains (strLower (pathSuffix e.relpath)) = false)
    (hbytes : e.bytes = some bs)
    (hdec : utf8ReadChars 1024 bs = false) :
    entrySection env e = none ∧
    (process_zip env ⟨dir, name, true, true, l1 ++ e :: l2⟩).outFile =
      some (dir ++ "/" ++ (name ++ ".md"), (l1 ++ l2).filterMap (entrySection env)) := by
  have hmem : strLower (pathSuffix e.relpath) ∉ text_extensions := by simpa using hext
  have htf : is_text_file e = false := by simp [is_text_file, hmem, hbytes, hdec]
  have hcf : convert_file env e.relpath = (none, false) := by simp [convert_file, hnc]
  have hes : entrySection env e = none := by simp [entrySection, hcf, plainSection, htf]
  refine ⟨hes, ?_⟩
  simp [process_zip, output_file, List.filterMap_append, List.filterMap_cons, hes]

/-- Witness for C6 on a png entry next to a text entry. -/
theorem C6_undecodable_binary_omitted_witness :
    entrySection envNone ePng = none ∧
    (process_zip envNone ⟨"/tmp", "t.zip", true, true, [eTxt] ++ ePng :: []⟩).outFile =
      some ("/tmp" ++ "/" ++ ("t.zip" ++ ".md"), ([eTxt] ++ []).filterMap (entrySection envNone)) :=
  C6_undecodable_binary_omitted envNone "/tmp" "t.zip" [eTxt] [] ePng [0x89, 0x50]
    (by decide) (by decide) rfl (by decide)

/-- C7: for a file with a convertible extension whose tool is absent
(jupytext's version check failing for a notebook, or pandoc off the
PATH for a pandoc-readable format), `get_conversion_tool` returns
`None` and the entry is handled by the plain-text arm. -/
theorem C7_missing_tool_plain_text_fallback (env : Env) (e : Entry)
    (h : (strLower (pathSuffix e.relpath) = ".ipynb" ∧ env.jupytextVersionOk = false) ∨
         (pandoc_formats.contains (strLower (pathSuffix e.relpath)) = true ∧
           env.pandocOnPath = false)) :
    get_conversion_tool env (pathSuffix e.relpath) = none ∧
    convert_file env e.relpath = (none, false) ∧
    entrySection env e = plainSection e := by
  have hgc : get_conversion_tool env (pathSuffix e.relpath) = none := by
    rcases h with ⟨hipy, hj⟩ | ⟨hpan, hp⟩
    · have hni : (".ipynb" : String) ∉ pandoc_formats := by decide
      simp [get_conversion_tool, hipy, hj, hni]
    · have hne : (strLower (pathSuffix e.relpath) == ".ipynb") = false := by
        cases hb : strLower (pathSuffix e.relpath) == ".ipynb" with
        | false => rfl
        | true =>
          rw [eq_of_beq hb] at hpan
          exact absurd hpan (by decide)
      simp [get_conversion_tool, hne, hp]
  have hcf : convert_file env e.relpath = (none, false) := by simp [convert_file, hgc]
  exact ⟨hgc, hcf, by simp [entrySection, hcf]⟩

/-- Witness for C7 on a docx entry with pandoc absent. -/
theorem C7_missing_tool_plain_text_fallback_witness :
    get_conversion_tool envPmiss (pathSuffix eDocx.relpath) = none ∧
    convert_file envPmiss eDocx.relpath = (none, false) ∧
    entrySection envPmiss eDocx = plainSection eDocx :=
  C7_missing_tool_plain_text_fallback envPmiss eDocx (Or.inr ⟨by decide, rfl⟩)

/-- C8: for every archive that is processed, the output document is the
sibling file named after the archive's full file name with `.md`
appended. -/
theorem C8_output_sibling_name_md (env : Env) (z : ZipInput)
    (hex : z.zexists = true) (hval : z.valid = true) :
    (process_zip env z).outFile =
      some (z.dir ++ "/" ++ (z.name ++ ".md"), z.entries.filterMap (entrySection env)) := by
  simp [process_zip, hex, hval, output_file]

/-- Witness for C8 on a concrete archive path. -/
theorem C8_output_sibling_name_md_witness :
    (process_zip envNone zOneTxt).outFile =
      some (zOneTxt.dir ++ "/" ++ (zOneTxt.name ++ ".md"),
        zOneTxt.entries.filterMap (entrySection envNone)) :=
  C8_output_sibling_name_md envNone zOneTxt rfl rfl

/-- C9: extension classification is case-insensitive:
`get_conversion_tool` answers the same on an extension and on its
lower-cased form, and the allow-list match of `is_text_file` treats an
extension and its lower-cased form identically. -/
theorem C9_extension_case_insensitive (env : Env) (ext : String) :
    get_conversion_tool env ext = get_conversion_tool env (strLower ext) ∧
    text_extensions.contains (strLower ext) =
      text_extensions.contains (strLower (strLower ext)) := by
  constructor
  · simp only [get_conversion_tool, strLower_strLower]
  · rw [strLower_strLower]

/-- C10: the allow-list takes precedence over content inspection: an
allow-listed extension is classified as text whatever the bytes, and
(when no conversion happens) the entry is included in the output as a
plain section whose content is the replacement-decoded bytes, even
when they are not valid UTF-8. -/
theorem C10_allowlist_precedence (env : Env) (e : Entry) (bs : List Nat)
    (hext : text_extensions.contains (strLower (pathSuffix e.relpath)) = true)
    (hconv : (convert_file env e.relpath).2 = false)
    (hbytes : e.bytes = some bs) :
    (∀ b, is_text_file { e with bytes := b } = true) ∧
    entrySection env e =
      some (Sect.plain e.relpath e.size (pathSuffix e.relpath) (decodeReplace bs)) := by
  have hmem : strLower (pathSuffix e.relpath) ∈ text_extensions := by simpa using hext
  constructor
  · intro b
    simp [is_text_file, hmem]
  · simp [entrySection, hconv, plainSection, is_text_file, hmem, hbytes]

/-- Witness for C10 on a `.txt` entry with non-UTF-8 bytes. -/
theorem C10_allowlist_precedence_witness :
    (∀ b, is_text_file { eBadTxt with bytes := b } = true) ∧
    entrySection envNone eBadTxt =
      some (Sect.plain eBadTxt.relpath eBadTxt.size (pathSuffix eBadTxt.relpath)
        (decodeReplace [0xFF, 0xFE])) :=
  C10_allowlist_precedence envNone eBadTxt [0xFF, 0xFE] (by decide) (by decide) rfl
